import Mathlib

/-!
Verification development for the file-serving / fallback-streaming core
(`src/fserve.c` of icecast-kh).  C strings are modelled as `List Char`,
machine integers as `Int` or `Nat` (the code under study never relies on
overflow in the verified paths), the AVL file-handle cache as a list of
nodes looked up by the (mount, flags) key, and collaborator modules that
are not part of the source under study (format plugins, sockets, stats,
configuration) as explicit parameters carrying their results.
-/

/-- C strings (`char *`) are modelled as lists of characters. -/
abbrev Str := List Char

/-- The FS_* flag bits of `fbinfo.flags` (fserve.h): FS_USE_ADMIN,
FS_FALLBACK, FS_DELETE, FS_MISSING.  Modelled as a record of booleans;
the cache comparator only needs equality of the whole bitset. -/
structure FFlags where
  use_admin : Bool
  fallback : Bool
  del : Bool
  missing : Bool
deriving DecidableEq, Repr

/-- The flag value 0 (no bits set). -/
def FFlags.none : FFlags := ⟨false, false, false, false⟩

/-- Only FS_FALLBACK set. -/
def FFlags.fallbackOnly : FFlags := ⟨false, true, false, false⟩

/-- `FORMAT_TYPE_UNDEFINED` is the zero value of the `format_type_t`
enumeration (format.h). -/
def FORMAT_TYPE_UNDEFINED : Nat := 0

/-- The caller-supplied file descriptor block `fbinfo` (fserve.h):
mount, flags, rate limit (bytes/sec, 0 = untimed), override target,
declared format type and file size. -/
structure FBInfo where
  flags : FFlags
  mount : Option Str
  fsize : Int
  limit : Nat
  override : Option Str
  ftype : Nat
deriving DecidableEq, Repr

/-- Modelled from the spec: the sliding-window bitrate meter of rate.c
(not under src/).  The spec describes it as a sliding-window byte
counter; we record the samples fed to it as a list of
(bytes, time_ms) pairs, most recent first.  The window parameters do
not affect any verified claim, so `rate_setup` returns the freshly
zeroed (empty) meter for any parameters. -/
structure RateCalc where
  samples : List (Int × Int)
deriving DecidableEq, Repr

/-- Modelled from the spec: `rate_setup (samples, ticks)` creates a fresh
meter with an empty window. -/
def rate_setup (_window _tick : Nat) : RateCalc := ⟨[]⟩

/-- Modelled from the spec: `rate_add (calc, bytes, t)` records one sample
into the meter; a NULL meter (`none`) ignores the sample. -/
def rate_add (r : Option RateCalc) (bytes : Int) (t : Int) : Option RateCalc :=
  r.map (fun rc => ⟨(bytes, t) :: rc.samples⟩)

/-- The cached file handle `fh_node` (fserve.c lines 95-110).  The mutex
is a concurrency artefact and is not part of the state; `f = -1` is the
closed descriptor (SOCK_ERROR), `stats = 0` means no stats handle,
`format = none` a NULL format plugin pointer (the plugin itself lives in
format.c and is modelled by its identity), `out_bitrate = none` a NULL
rate meter, and `clients` is the avl tree of listeners given by their
connection ids. -/
structure FHNode where
  finfo : FBInfo
  prev_count : Int
  refcount : Int
  peak : Int
  f : Int
  stats_update : Int
  expire : Int
  frame_start_pos : Int
  stats : Nat
  format : Option Nat
  out_bitrate : Option RateCalc
  clients : List Nat
deriving DecidableEq, Repr

/-- The (mount, flags) key that `_compare_fh` orders the cache by. -/
def fhKey (fh : FHNode) : Option Str × FFlags := (fh.finfo.mount, fh.finfo.flags)

/-- The probe-key computation of `find_fh` (fserve.c lines 331-355):
a `fallback-` prefix is stripped and FS_FALLBACK OR-ed into the probe
flags, a `file-` prefix is stripped, anything else probes as is. -/
def find_probe (flags : FFlags) (s : Str) : Option Str × FFlags :=
  if "fallback-".data.isPrefixOf s then
    (some (s.drop 9), { flags with fallback := true })
  else if "file-".data.isPrefixOf s then
    (some (s.drop 5), flags)
  else (some s, flags)

/-- `find_fh` (fserve.c lines 331-355): NULL mount fails the lookup,
otherwise the cache is searched for the node whose (mount, flags) key
equals the probe key. -/
def find_fh (cache : List FHNode) (finfo : FBInfo) : Option FHNode :=
  match finfo.mount with
  | Option.none => Option.none
  | some s =>
    cache.find? (fun fh => decide (fhKey fh = find_probe finfo.flags s))

/-- The enabling half of `fh_stats` (fserve.c lines 269-295): with a
nonzero rate limit and no stats handle yet, a handle is acquired from
the stats collaborator (modelled as the abstract nonzero handle 1) and
`prev_count` is set to `~refcount` to force a listener-count update. -/
def fh_stats_on (fh : FHNode) : FHNode :=
  if fh.finfo.limit = 0 then fh
  else if fh.stats = 0 then
    { fh with stats := 1, prev_count := -fh.refcount - 1 }
  else fh

/-- The disabling half of `fh_stats` (enable == 0): an existing stats
handle is released and zeroed; on the node state this is exactly
clearing the stats field (a node already at 0 is untouched by the C and
unchanged here too). -/
def fh_stats_off (fh : FHNode) : FHNode := { fh with stats := 0 }

/-- `fh_add_client` (fserve.c lines 358-372): insert the client into the
listener set, enable stats when the first listener arrives on a rate
limited handle, bump the refcount and track the peak. -/
def fh_add_client (fh : FHNode) (cid : Nat) : FHNode :=
  let fh := { fh with clients := cid :: fh.clients }
  let fh := if fh.refcount = 0 ∧ fh.finfo.limit ≠ 0 then fh_stats_on fh else fh
  let fh := { fh with refcount := fh.refcount + 1 }
  { fh with peak := max fh.peak fh.refcount }

/-- `remove_from_fh` (fserve.c lines 298-328): drop the refcount and the
client; when the last listener leaves a named handle, free the meter,
then either disable stats (FS_FALLBACK), destroy the handle outright
(FS_DELETE, modelled by `none`), or arm a 120 second expiry; survivors
get a freshly zeroed outgoing-bitrate meter. -/
def remove_from_fh (fh : FHNode) (cid : Nat) (now : Int) : Option FHNode :=
  let fh := { fh with refcount := fh.refcount - 1, clients := fh.clients.erase cid }
  if fh.refcount = 0 ∧ fh.finfo.mount.isSome then
    if fh.finfo.flags.fallback then
      some { fh_stats_off fh with out_bitrate := some (rate_setup 10000 1000) }
    else
      let fh := { fh with out_bitrate := Option.none }
      if fh.finfo.flags.del then Option.none
      else some { fh with expire := now + 120, out_bitrate := some (rate_setup 10000 1000) }
  else some fh

/-- Replace the first node satisfying `p` by its image under `g`; this is
how an in-place mutation of the node returned by `avl_get_by_key` acts
on the cache list. -/
def update_first (p : FHNode → Bool) (g : FHNode → FHNode) : List FHNode → List FHNode
  | [] => []
  | n :: rest => if p n then g n :: rest else n :: update_first p g rest

/-- Remove the first node satisfying `p`: the effect of `avl_delete` on
the node found under that key. -/
def remove_first (p : FHNode → Bool) : List FHNode → List FHNode
  | [] => []
  | n :: rest => if p n then rest else n :: remove_first p rest

/-- The outcome of `fserve_set_override`: the rewritten cache, the old
node when it was tombstoned and detached from the cache (the C keeps it
alive only through its listeners), and the int return value. -/
structure OverrideOut where
  cache : List FHNode
  detached : Option FHNode
  found : Bool
deriving DecidableEq, Repr

/-- The probe `fh.finfo` built on the stack by `fserve_set_override`
(fserve.c lines 1070-1075); only mount and flags take part in the
lookup. -/
def overrideProbe (mount : Str) (ftype : Nat) : FBInfo :=
  { flags := FFlags.fallbackOnly, mount := some mount, fsize := 0,
    limit := 0, override := Option.none, ftype := ftype }

/-- `fserve_set_override` (fserve.c lines 1068-1115): look up the
fallback handle for `mount`.  With listeners attached, a clean copy
taking over the descriptor and format is inserted in its place
(calloc leaves refcount 0, peak 0, frame_start_pos 0, fresh meter,
empty listener set, never-expire) while the original is detached,
tombstoned FS_DELETE, stripped of FS_FALLBACK, its override set to a
copy of `dest` and its type to `type`; either way the (possibly
rewritten) old node loses its stats handle and 1 is returned.  Without
a match 0 is returned. -/
def fserve_set_override (cache : List FHNode) (mount dest : Str) (ftype : Nat) :
    OverrideOut :=
  match find_fh cache (overrideProbe mount ftype) with
  | Option.none => ⟨cache, Option.none, false⟩
  | some result =>
    if 0 < result.refcount then
      let copy : FHNode :=
        { finfo := result.finfo
          prev_count := -1
          refcount := 0
          peak := 0
          f := result.f
          stats_update := 0
          expire := -1
          frame_start_pos := 0
          stats := 0
          format := result.format
          out_bitrate := some (rate_setup 10000 1000)
          clients := [] }
      let tomb : FHNode := fh_stats_off
        { result with
          finfo := { result.finfo with
            flags := { result.finfo.flags with del := true, fallback := false }
            override := some dest
            ftype := ftype }
          format := Option.none
          f := -1 }
      ⟨copy :: remove_first (fun fh => decide (fhKey fh = fhKey result)) cache,
       some tomb, true⟩
    else
      ⟨update_first (fun fh => decide (fhKey fh = fhKey result)) fh_stats_off cache,
       Option.none, true⟩

/-- The observable HTTP-level outcome of `fserve_setup_client_fb`:
the early -1 rejection, the two 403 refusals, 404, 416, or admission
(return 0). -/
inductive SetupRes
  | earlyReject
  | send403redirect
  | send403
  | send404
  | send416
  | ok
deriving DecidableEq, Repr

/-- The listener fields of `client_t` that the fserve paths read or
write: response code, the CONN_FLG_END_UNSPEC flag, the discon.sent
byte target, start_pos, sent_bytes, pacing state (timer_start,
counter), intro_offset, schedule_ms, throttle, the CLIENT_WANTS_FLV and
CLIENT_KEEPALIVE flags, the connection error flag and the connection
id. -/
structure Client where
  respcode : Nat
  endUnspec : Bool
  disconSent : Int
  startPos : Int
  sentBytes : Nat
  timer_start : Int
  counter : Nat
  intro_offset : Int
  schedule_ms : Int
  throttle : Nat
  wantsFLV : Bool
  keepalive : Bool
  connError : Bool
  cid : Nat
deriving DecidableEq, Repr

/-- The slice of `mount_proxy` consulted here: the max_listeners policy
(-1 = unlimited). -/
structure MountInfo where
  max_listeners : Int
deriving DecidableEq, Repr

/-- Result record of the admission routine. -/
structure SetupOut where
  res : SetupRes
  cache : List FHNode
  client : Client
deriving DecidableEq, Repr

/-- The tail of `fserve_setup_client_fb` from line 972 on, shared by the
cache-hit and fresh-open paths: initialise pacing for a throttled
handle, run the header block (`do { ... } while (0)`, lines 995-1029)
and on success attach the client via `fh_add_client`.  `cacheIn`
already contains `fh`; `fchRes` stands for the result of the
`format_client_headers` collaborator used when the format type is
undefined (with a defined type the C unconditionally ends the block
with ret = 0). -/
def setup_attach (cacheIn : List FHNode) (fh : FHNode) (client : Client)
    (now : Int) (fchRes : Int) : SetupOut :=
  let client :=
    if fh.finfo.limit ≠ 0 then
      { client with
        timer_start := now - (if client.sentBytes = 0 then 2 else 0)
        counter := 0 }
    else client
  let hdr : Int × Client :=
    if client.respcode ≠ 0 then (0, client)
    else
      let f_range : Int := fh.finfo.fsize - fh.frame_start_pos
      if ¬ client.endUnspec ∧ client.disconSent > f_range then (-1, client)
      else
        let client :=
          { client with disconSent :=
              (if client.endUnspec then f_range else client.disconSent) - client.startPos }
        let client := if fh.finfo.limit ≠ 0 then { client with keepalive := false } else client
        ((if fh.finfo.ftype = FORMAT_TYPE_UNDEFINED then fchRes else 0), client)
  if hdr.1 < 0 then ⟨SetupRes.send416, cacheIn, hdr.2⟩
  else
    ⟨SetupRes.ok,
     update_first (fun n => decide (fhKey n = fhKey fh)) (fun n => fh_add_client n client.cid) cacheIn,
     hdr.2⟩

/-- `fserve_setup_client_fb` (fserve.c lines 913-1050) for a non-NULL
`finfo`.  Collaborators appear as parameters: `minfo` is the
configuration lookup `config_lock_mount`, `dupReject` the result of
`check_duplicate_logins` being 0, `openRes` the node built by `open_fh`
on a cache miss (`none` when the open fails), and `fchRes` the header
collaborator result.  Reject FS_MISSING or a zero-limit fallback up
front; on a cache hit enforce the max-listeners and duplicate-login
policies; on a miss with `max_listeners == 0` refuse without opening,
otherwise insert the opened node; then attach. -/
def fserve_setup_client_fb (cache : List FHNode) (client : Client) (finfo : FBInfo)
    (minfo : Option MountInfo) (dupReject : Bool) (openRes : Option FHNode)
    (now : Int) (fchRes : Int) : SetupOut :=
  if finfo.flags.missing = true ∨ (finfo.flags.fallback = true ∧ finfo.limit = 0) then
    ⟨SetupRes.earlyReject, cache, client⟩
  else
    match find_fh cache finfo with
    | some fh =>
      match minfo with
      | some m =>
        if m.max_listeners ≥ 0 ∧ fh.refcount > m.max_listeners then
          ⟨SetupRes.send403redirect, cache, client⟩
        else if dupReject then ⟨SetupRes.send403, cache, client⟩
        else setup_attach cache fh client now fchRes
      | Option.none => setup_attach cache fh client now fchRes
    | Option.none =>
      if (match minfo with | some m => decide (m.max_listeners = 0) | Option.none => false) = true then
        ⟨SetupRes.send403redirect, cache, client⟩
      else
        match openRes with
        | Option.none => ⟨SetupRes.send404, cache, client⟩
        | some fh => setup_attach (fh :: cache) fh client now fchRes

/-- Result of one `format_file_read` call: -1 (end of file), -2 (hard
failure) or a successful read into the client refbuf. -/
inductive ReadRes
  | eof
  | fatal
  | ok
deriving DecidableEq, Repr

/-- Observable outcome of one `throttled_file_send` tick: the int
result, the updated client, both bitrate meters, whether
`format_file_read` was reached, and whether the tick diverted into
`fserve_move_listener`. -/
structure ThrottleOut where
  ret : Int
  client : Client
  fh_rate : Option RateCalc
  globalRate : RateCalc
  didRead : Bool
  moved : Bool
deriving DecidableEq, Repr

/-- The pacing rate computed by `throttled_file_send`:
`(counter + 1400) / secs`, or `limit * 2` in the first second. -/
def throttleRate (counter : Nat) (secs : Nat) (limit : Nat) : Nat :=
  if secs ≠ 0 then (counter + 1400) / secs else limit * 2

/-- `throttled_file_send` (fserve.c lines 841-903).  Parameters stand
for the collaborator results: `moveWorker` for `fserve_change_worker`,
`moveRes` for `fserve_move_listener`, `readRes` for
`format_file_read`, `writeBytes` for `client->check_buffer`, and
`throttleSends` for the global slowdown level.  For a CLIENT_WANTS_FLV
client the C scales the limit by the double 1.01; that branch is
modelled with exact arithmetic `limit * 101 / 100` and no theorem
relies on it.  The advance of `client->counter` happens inside the
format write collaborator and is therefore not part of this tick
model. -/
def throttled_file_send (fh : FHNode) (client : Client) (timeMs : Int) (nowSec : Int)
    (running : Bool) (moveWorker : Bool) (moveRes : Int) (readRes : ReadRes)
    (writeBytes : Int) (throttleSends : Nat) (globalRate : RateCalc) : ThrottleOut :=
  if running = false ∨ client.connError = true then
    ⟨-1, client, fh.out_bitrate, globalRate, false, false⟩
  else
    let secs : Nat := (nowSec - client.timer_start).toNat
    let client := { client with schedule_ms := timeMs }
    if fh.finfo.override.isSome then
      ⟨moveRes, client, fh.out_bitrate, globalRate, false, true⟩
    else if moveWorker then
      ⟨1, client, fh.out_bitrate, globalRate, false, false⟩
    else
      let limit : Nat :=
        if client.wantsFLV then fh.finfo.limit * 101 / 100 else fh.finfo.limit
      let rate : Nat := throttleRate client.counter secs limit
      let throttled : Bool := decide (rate > limit)
      let client :=
        if throttled then
          { client with schedule_ms := client.schedule_ms +
              (if 1400 ≤ limit then ((1000 / (limit / 1400) : Nat) : Int) else 50) }
        else client
      let fhRate := if throttled then rate_add fh.out_bitrate 0 timeMs else fh.out_bitrate
      let gRate : RateCalc :=
        if throttled then ⟨(0, timeMs) :: globalRate.samples⟩ else globalRate
      if throttled ∧ client.counter > 8192 then
        ⟨0, client, fhRate, gRate, false, false⟩
      else
        match readRes with
        | ReadRes.eof =>
          ⟨0, { client with
                intro_offset := fh.frame_start_pos
                schedule_ms := client.schedule_ms +
                  (if client.throttle ≠ 0 then (client.throttle : Int) else 150) },
           fhRate, gRate, true, false⟩
        | ReadRes.fatal => ⟨-1, client, fhRate, gRate, true, false⟩
        | ReadRes.ok =>
          let bytes : Int := if writeBytes < 0 then 0 else writeBytes
          let fhRate := rate_add fhRate bytes timeMs
          let gRate : RateCalc := ⟨(bytes, timeMs) :: gRate.samples⟩
          let client := { client with schedule_ms := client.schedule_ms +
              (if limit > 2800 then ((1000 / (limit / 1400 * 2) : Nat) : Int) else 50) }
          let client :=
            if throttleSends > 1 then
              { client with schedule_ms := client.schedule_ms + 300 }
            else client
          ⟨0, client, fhRate, gRate, true, false⟩

/-- The stats-refresh step of the scan loop (fserve.c lines 1494-1513):
for a rate-limited handle carrying a stats handle, republish the
listener count when it changed and the outgoing kbitrate every 5
seconds; only `prev_count` and `stats_update` change in the node. -/
def scan_fh (fh : FHNode) (now : Int) : FHNode :=
  if fh.finfo.limit ≠ 0 ∧ fh.stats ≠ 0 then
    let fh := if fh.prev_count ≠ fh.refcount then { fh with prev_count := fh.refcount } else fh
    if fh.stats_update ≤ now then { fh with stats_update := now + 5 } else fh
  else fh

/-- `fserve_scan` (fserve.c lines 1469-1527): when the server is no
longer running the effective time becomes 0 and every expire field is
reset to 0 for the next pass; otherwise each node is stats-refreshed
and reaped when it has no listeners and its non-negative expiry has
passed. -/
def fserve_scan (cache : List FHNode) (now : Int) (running : Bool) : List FHNode :=
  let now := if running then now else 0
  if now = 0 then
    cache.map (fun fh => { fh with expire := 0 })
  else
    cache.filterMap (fun fh =>
      let fh := scan_fh fh now
      if fh.refcount = 0 ∧ fh.expire ≥ 0 ∧ now ≥ fh.expire then Option.none else some fh)

/-- `fserve_contains` (fserve.c lines 1533-1553): a name opening with
fallback-slash is stripped of 9 characters and probed with FS_FALLBACK,
a name opening with file-slash is passed whole (find_fh strips that
itself), anything else keeps the NULL mount of the zeroed probe and is
never found; a write-locked cache (`wouldBlock`) reports -1, otherwise
1 when found and 0 when missing. -/
def fserve_contains (cache : List FHNode) (name : Str) (wouldBlock : Bool) : Int :=
  let finfo : FBInfo :=
    if "fallback-/".data.isPrefixOf name then
      { flags := FFlags.fallbackOnly, mount := some (name.drop 9), fsize := 0,
        limit := 0, override := Option.none, ftype := 0 }
    else if "file-/".data.isPrefixOf name then
      { flags := FFlags.none, mount := some name, fsize := 0,
        limit := 0, override := Option.none, ftype := 0 }
    else
      { flags := FFlags.none, mount := Option.none, fsize := 0,
        limit := 0, override := Option.none, ftype := 0 }
  if wouldBlock then -1
  else if (find_fh cache finfo).isSome then 1 else 0

/-- Modelled from the spec: `util_get_extension` (util.c, which is not
part of the source under study) yields the suffix of the path after its
final dot, and NULL (`none`) when the path contains no dot at all. -/
def util_get_extension (path : Str) : Option Str :=
  if '.' ∈ path then some ((path.reverse.takeWhile (fun c => c ≠ '.')).reverse)
  else Option.none

/-- The built-in extension-to-type table of `fserve_recheck_mime_types`
(fserve.c lines 1172-1188). -/
def default_mimetypes : List (Str × Str) :=
  [ ("m3u".data, "audio/x-mpegurl".data),
    ("pls".data, "audio/x-scpls".data),
    ("xspf".data, "application/xspf+xml".data),
    ("ogg".data, "application/ogg".data),
    ("xml".data, "text/xml".data),
    ("mp3".data, "audio/mpeg".data),
    ("aac".data, "audio/aac".data),
    ("aacp".data, "audio/aacp".data),
    ("css".data, "text/css".data),
    ("txt".data, "text/plain".data),
    ("html".data, "text/html".data),
    ("jpg".data, "image/jpg".data),
    ("png".data, "image/png".data),
    ("gif".data, "image/gif".data) ]

/-- `fserve_content_type` (fserve.c lines 186-208): a path without an
extension yields a copy of text/html without touching the registry;
otherwise the extension is looked up in the mime tree (keyed by
`strcmp` on the extension) and the mapped type, or the
application/octet-stream default, is returned as an owned copy. -/
def fserve_content_type (mimetypes : List (Str × Str)) (path : Str) : Str :=
  match util_get_extension path with
  | Option.none => "text/html".data
  | some ext =>
    match mimetypes.lookup ext with
    | some t => t
    | Option.none => "application/octet-stream".data

/-! Helper lemmas about the cache-list operations. -/

theorem isPrefixOf_cons_cons (a b : Char) (as bs : List Char) :
    (a :: as).isPrefixOf (b :: bs) = (a == b && as.isPrefixOf bs) := rfl

theorem find?_update_first (p : FHNode → Bool) (g : FHNode → FHNode)
    (hp : ∀ n, p n = true → p (g n) = true) :
    ∀ l : List FHNode, (update_first p g l).find? p = (l.find? p).map g := by
  intro l
  induction l with
  | nil => rfl
  | cons a t ih =>
    by_cases h : p a = true
    · rw [update_first, if_pos h, List.find?_cons_of_pos _ (hp a h),
        List.find?_cons_of_pos _ h, Option.map_some']
    · have h' : p a = false := by revert h; cases p a <;> simp
      rw [update_first, if_neg (by simp [h']), List.find?_cons_of_neg _ (by simp [h']),
        List.find?_cons_of_neg _ (by simp [h']), ih]

theorem length_update_first (p : FHNode → Bool) (g : FHNode → FHNode) :
    ∀ l : List FHNode, (update_first p g l).length = l.length := by
  intro l
  induction l with
  | nil => rfl
  | cons a t ih =>
    by_cases h : p a = true
    · rw [update_first, if_pos h, List.length_cons, List.length_cons]
    · rw [update_first, if_neg h, List.length_cons, List.length_cons, ih]

theorem fhKey_fh_stats_on (fh : FHNode) : fhKey (fh_stats_on fh) = fhKey fh := by
  rw [fh_stats_on]
  split <;> [rfl; skip]
  split <;> rfl

theorem refcount_fh_stats_on (fh : FHNode) : (fh_stats_on fh).refcount = fh.refcount := by
  rw [fh_stats_on]
  split <;> [rfl; skip]
  split <;> rfl

theorem fhKey_fh_add_client (fh : FHNode) (cid : Nat) :
    fhKey (fh_add_client fh cid) = fhKey fh := by
  simp only [fh_add_client, fh_stats_on, fhKey]
  split_ifs <;> rfl

theorem refcount_fh_add_client (fh : FHNode) (cid : Nat) :
    (fh_add_client fh cid).refcount = fh.refcount + 1 := by
  simp only [fh_add_client, fh_stats_on]
  split_ifs <;> rfl

theorem fhKey_scan_fh (fh : FHNode) (now : Int) : fhKey (scan_fh fh now) = fhKey fh := by
  simp only [scan_fh, fhKey]
  split_ifs <;> rfl

theorem refcount_scan_fh (fh : FHNode) (now : Int) :
    (scan_fh fh now).refcount = fh.refcount := by
  simp only [scan_fh]
  split_ifs <;> rfl

theorem expire_scan_fh (fh : FHNode) (now : Int) :
    (scan_fh fh now).expire = fh.expire := by
  simp only [scan_fh]
  split_ifs <;> rfl

/-! Claim theorems. -/

/-- C1: when a fallback handle for `mount` with listeners attached
(refcount > 0) is found in the cache, `fserve_set_override` detaches it
from the cache as the tombstone carrying FS_DELETE, no FS_FALLBACK, and
an override copy of `dest`, while a fresh entry under the same
(mount, flags) key, inheriting the descriptor and the format parser but
with an empty listener set and refcount 0, is found in its place by a
new lookup; the call returns true exactly when a fallback handle for
the mount was found, and false otherwise. -/
theorem set_override_tombstones_and_reinserts
    (cache : List FHNode) (mount dest : Str) (ftype : Nat) (old : FHNode)
    (hfind : find_fh cache (overrideProbe mount ftype) = some old)
    (href : 0 < old.refcount) :
    (fserve_set_override cache mount dest ftype).found = true ∧
    (∃ t, (fserve_set_override cache mount dest ftype).detached = some t ∧
      t.finfo.flags.del = true ∧ t.finfo.flags.fallback = false ∧
      t.finfo.override = some dest ∧ t.format = Option.none ∧ t.f = -1 ∧
      t.refcount = old.refcount ∧ t.clients = old.clients) ∧
    (∃ c, find_fh (fserve_set_override cache mount dest ftype).cache
        (overrideProbe mount ftype) = some c ∧
      c.f = old.f ∧ c.format = old.format ∧ c.clients = [] ∧ c.refcount = 0 ∧
      c.finfo.mount = old.finfo.mount ∧ c.finfo.flags = old.finfo.flags ∧
      c.out_bitrate = some (rate_setup 10000 1000) ∧ c.expire = -1) ∧
    (∀ cache₂ : List FHNode, find_fh cache₂ (overrideProbe mount ftype) = Option.none →
      (fserve_set_override cache₂ mount dest ftype).found = false) := by
  have hp := List.find?_some (by simpa [find_fh, overrideProbe] using hfind)
  have hkey : fhKey old = find_probe FFlags.fallbackOnly mount := of_decide_eq_true hp
  refine ⟨?_, ?_, ?_, ?_⟩
  · simp [fserve_set_override, hfind, href]
  · refine ⟨fh_stats_off { old with finfo := { old.finfo with flags := { old.finfo.flags with del := true, fallback := false }, override := some dest, ftype := ftype }, format := Option.none, f := -1 }, ?_, ?_, ?_, ?_, ?_, ?_, ?_, ?_⟩
    · simp [fserve_set_override, hfind, href]
    all_goals simp [fh_stats_off]
  · refine ⟨{ finfo := old.finfo, prev_count := -1, refcount := 0, peak := 0, f := old.f, stats_update := 0, expire := -1, frame_start_pos := 0, stats := 0, format := old.format, out_bitrate := some (rate_setup 10000 1000), clients := [] }, ?_, rfl, rfl, rfl, rfl, rfl, rfl, rfl, rfl⟩
    have hfind' : cache.find?
        (fun fh => decide (fhKey fh = find_probe FFlags.fallbackOnly mount)) = some old := by
      simpa [find_fh, overrideProbe] using hfind
    simp only [fserve_set_override, find_fh, overrideProbe, hfind']
    rw [if_pos href]
    apply List.find?_cons_of_pos
    exact decide_eq_true hkey
  · intro cache₂ hnone
    simp [fserve_set_override, hnone]

/-- A fallback handle for mount /m with two listeners attached, used to
instantiate the override theorems. -/
def c1fh : FHNode :=
  { finfo := { flags := FFlags.fallbackOnly, mount := some "/m".data, fsize := 4096,
               limit := 1400, override := Option.none, ftype := 1 },
    prev_count := 0, refcount := 2, peak := 2, f := 5, stats_update := 0,
    expire := -1, frame_start_pos := 100, stats := 1, format := some 7,
    out_bitrate := some ⟨[]⟩, clients := [7, 13] }

/-- Witness for C1 at the concrete one-node cache. -/
theorem set_override_tombstones_and_reinserts_witness :
    (fserve_set_override [c1fh] "/m".data "/live".data 1).found = true ∧
    (fserve_set_override [c1fh] "/m".data "/live".data 1).detached.isSome = true := by
  have h := set_override_tombstones_and_reinserts [c1fh] "/m".data "/live".data 1 c1fh
    (by decide) (by decide)
  refine ⟨h.1, ?_⟩
  obtain ⟨t, ht, -⟩ := h.2.1
  rw [ht]
  rfl

/-- C10: when the fallback handle found for the mount has no listeners,
`fserve_set_override` inserts nothing (the cache keeps its length), the
handle stays in the cache under its original key with only the stats
handle cleared, nothing is detached, and the call still returns
true. -/
theorem set_override_idle_keeps_node
    (cache : List FHNode) (mount dest : Str) (ftype : Nat) (old : FHNode)
    (hfind : find_fh cache (overrideProbe mount ftype) = some old)
    (href : old.refcount = 0) :
    (fserve_set_override cache mount dest ftype).found = true ∧
    (fserve_set_override cache mount dest ftype).detached = Option.none ∧
    find_fh (fserve_set_override cache mount dest ftype).cache (overrideProbe mount ftype)
      = some { old with stats := 0 } ∧
    (fserve_set_override cache mount dest ftype).cache.length = cache.length := by
  have hp := List.find?_some (by simpa [find_fh, overrideProbe] using hfind)
  have hkey : fhKey old = find_probe FFlags.fallbackOnly mount := of_decide_eq_true hp
  have hnotpos : ¬ 0 < old.refcount := by rw [href]; exact lt_irrefl 0
  have hfind' : cache.find?
      (fun fh => decide (fhKey fh = find_probe FFlags.fallbackOnly mount)) = some old := by
    simpa [find_fh, overrideProbe] using hfind
  refine ⟨?_, ?_, ?_, ?_⟩
  · simp [fserve_set_override, hfind, hnotpos]
  · simp [fserve_set_override, hfind, hnotpos]
  · simp only [fserve_set_override, find_fh, overrideProbe, hfind']
    rw [if_neg hnotpos, hkey,
      find?_update_first _ fh_stats_off (fun n h => by simpa [fh_stats_off, fhKey] using h),
      hfind']
    rfl
  · simp only [fserve_set_override, find_fh, overrideProbe, hfind']
    rw [if_neg hnotpos]
    exact length_update_first _ _ cache

/-- A listener-less fallback handle for mount /m, instantiating C10. -/
def c10fh : FHNode := { c1fh with refcount := 0, clients := [] }

/-- Witness for C10 at the concrete one-node cache. -/
theorem set_override_idle_keeps_node_witness :
    (fserve_set_override [c10fh] "/m".data "/live".data 1).found = true ∧
    (fserve_set_override [c10fh] "/m".data "/live".data 1).detached = Option.none ∧
    find_fh (fserve_set_override [c10fh] "/m".data "/live".data 1).cache
      (overrideProbe "/m".data 1) = some { c10fh with stats := 0 } ∧
    (fserve_set_override [c10fh] "/m".data "/live".data 1).cache.length = 1 :=
  set_override_idle_keeps_node [c10fh] "/m".data "/live".data 1 c10fh
    (by decide) (by decide)

/-- C7: with a non-NULL finfo carrying FS_MISSING, or FS_FALLBACK with a
zero limit, `fserve_setup_client_fb` returns -1 at once: the outcome is
the early rejection and both the cache and the client are returned
exactly as they came in. -/
theorem setup_client_rejects_bad_finfo
    (cache : List FHNode) (client : Client) (finfo : FBInfo)
    (minfo : Option MountInfo) (dupReject : Bool) (openRes : Option FHNode)
    (now : Int) (fchRes : Int)
    (hbad : finfo.flags.missing = true ∨ (finfo.flags.fallback = true ∧ finfo.limit = 0)) :
    fserve_setup_client_fb cache client finfo minfo dupReject openRes now fchRes
      = ⟨SetupRes.earlyReject, cache, client⟩ := by
  rw [fserve_setup_client_fb.eq_def, if_pos hbad]

/-- A well-formed client used to instantiate the admission theorems. -/
def democlient : Client :=
  { respcode := 0, endUnspec := true, disconSent := 0, startPos := 0, sentBytes := 5,
    timer_start := 0, counter := 0, intro_offset := 0, schedule_ms := 0, throttle := 0,
    wantsFLV := false, keepalive := true, connError := false, cid := 21 }

/-- A fallback request descriptor with a zero limit, instantiating C7. -/
def c7finfo : FBInfo :=
  { flags := FFlags.fallbackOnly, mount := some "/m".data, fsize := 4096,
    limit := 0, override := Option.none, ftype := 1 }

/-- Witness for C7 at a concrete zero-limit fallback request. -/
theorem setup_client_rejects_bad_finfo_witness :
    fserve_setup_client_fb [c1fh] democlient c7finfo (some ⟨2⟩) false Option.none 100 0
      = ⟨SetupRes.earlyReject, [c1fh], democlient⟩ :=
  setup_client_rejects_bad_finfo [c1fh] democlient c7finfo (some ⟨2⟩) false Option.none 100 0
    (Or.inr ⟨rfl, rfl⟩)

/-- C8: whenever the path has an extension and that extension has no
mapping in the mime registry, `fserve_content_type` returns the
application/octet-stream default (each branch of the C returns a fresh
strdup copy, so the result is an owned string). -/
theorem content_type_defaults_to_octet_stream
    (mimetypes : List (Str × Str)) (path e : Str)
    (hext : util_get_extension path = some e)
    (hmap : mimetypes.lookup e = Option.none) :
    fserve_content_type mimetypes path = "application/octet-stream".data := by
  simp only [fserve_content_type, hext, hmap]

/-- Witness for C8: an unmapped extension against the built-in
registry. -/
theorem content_type_defaults_to_octet_stream_witness :
    fserve_content_type default_mimetypes "x.zzz".data = "application/octet-stream".data :=
  content_type_defaults_to_octet_stream default_mimetypes "x.zzz".data "zzz".data
    (by decide) (by decide)

/-- C9: a path without any filename extension yields text/html from
`fserve_content_type` for every registry whatsoever, so the registry is
never consulted. -/
theorem content_type_no_extension_html
    (mimetypes : List (Str × Str)) (path : Str)
    (hext : util_get_extension path = Option.none) :
    fserve_content_type mimetypes path = "text/html".data := by
  simp only [fserve_content_type, hext]

/-- Witness for C9: a dotless path against the built-in registry. -/
theorem content_type_no_extension_html_witness :
    fserve_content_type default_mimetypes "noext".data = "text/html".data :=
  content_type_no_extension_html default_mimetypes "noext".data (by decide)

/-- C6: when the last listener (refcount 1 before the call) departs a
named handle carrying neither FS_FALLBACK nor FS_DELETE,
`remove_from_fh` keeps the handle alive (it is not destroyed, and the
function touches no cache structure, so the node stays in the cache),
arms `expire = now + 120` and installs a freshly zeroed outgoing
bitrate meter. -/
theorem remove_last_listener_arms_expiry
    (fh : FHNode) (cid : Nat) (now : Int)
    (href : fh.refcount = 1)
    (hmount : fh.finfo.mount.isSome = true)
    (hfb : fh.finfo.flags.fallback = false)
    (hdel : fh.finfo.flags.del = false) :
    remove_from_fh fh cid now
      = some { fh with refcount := 0, clients := fh.clients.erase cid, expire := now + 120, out_bitrate := some (rate_setup 10000 1000) } ∧
    (rate_setup 10000 1000).samples = [] := by
  refine ⟨?_, rfl⟩
  simp only [remove_from_fh, href, hmount, hfb, hdel]
  norm_num

/-- A single-listener plain file handle, instantiating C6. -/
def c6fh : FHNode :=
  { c1fh with finfo := { c1fh.finfo with flags := FFlags.none }, refcount := 1, clients := [7] }

/-- Witness for C6 at the concrete single-listener handle. -/
theorem remove_last_listener_arms_expiry_witness :
    remove_from_fh c6fh 7 500
      = some { c6fh with refcount := 0, clients := [], expire := 620, out_bitrate := some (rate_setup 10000 1000) } ∧
    (rate_setup 10000 1000).samples = [] := by
  have h := remove_last_listener_arms_expiry c6fh 7 500 rfl rfl rfl rfl
  exact ⟨by rw [h.1]; rfl, h.2⟩

/-- The body applied to each node by the scanning pass. -/
def scan_step (now : Int) (fh : FHNode) : Option FHNode :=
  let fh := scan_fh fh now
  if fh.refcount = 0 ∧ fh.expire ≥ 0 ∧ now ≥ fh.expire then Option.none else some fh

theorem fserve_scan_running (cache : List FHNode) (now : Int) (hnow : now ≠ 0) :
    fserve_scan cache now true = cache.filterMap (scan_step now) := by
  simp only [fserve_scan, if_true, scan_step]
  rw [if_neg hnow]
  rfl

/-- C5: a running-state scan with a nonzero clock destroys every cache
node that has no listeners and a non-negative, already reached expiry:
afterwards nothing under the reaped key remains (so a subsequent
`fserve_contains` on its fallback name reports it missing), while every
handle with listeners or with the never-expire marker -1 survives the
pass. -/
theorem scan_reaps_expired
    (cache : List FHNode) (now : Int) (fh : FHNode) (m' : Str)
    (hnow : now ≠ 0)
    (hmem : fh ∈ cache)
    (href : fh.refcount = 0)
    (hexp0 : fh.expire ≥ 0)
    (hexp : now ≥ fh.expire)
    (hmount : fh.finfo.mount = some ('/' :: m'))
    (hflags : fh.finfo.flags = FFlags.fallbackOnly)
    (huniq : ∀ g ∈ cache, fhKey g = fhKey fh → g = fh) :
    (∀ g ∈ fserve_scan cache now true, fhKey g ≠ fhKey fh) ∧
    fserve_contains (fserve_scan cache now true) ("fallback-".data ++ '/' :: m') false = 0 ∧
    (∀ g ∈ cache, (0 < g.refcount ∨ g.expire = -1) →
      scan_fh g now ∈ fserve_scan cache now true) := by
  rw [fserve_scan_running cache now hnow]
  have hgone : ∀ g ∈ cache.filterMap (scan_step now), fhKey g ≠ fhKey fh := by
    intro g hg hkeyeq
    obtain ⟨a, ha, hfa⟩ := List.mem_filterMap.1 hg
    rw [scan_step] at hfa
    by_cases hc : (scan_fh a now).refcount = 0 ∧ (scan_fh a now).expire ≥ 0 ∧
        now ≥ (scan_fh a now).expire
    · rw [if_pos hc] at hfa
      exact Option.noConfusion hfa
    · rw [if_neg hc] at hfa
      have hga : scan_fh a now = g := by injection hfa
      have hafh : a = fh := by
        refine huniq a ha ?_
        rw [← fhKey_scan_fh a now, hga]
        exact hkeyeq
      refine hc ?_
      rw [refcount_scan_fh, expire_scan_fh, hafh]
      exact ⟨href, hexp0, hexp⟩
  refine ⟨hgone, ?_, ?_⟩
  · have hpre1 : "fallback-/".data.isPrefixOf ("fallback-".data ++ '/' :: m') = true := by
      rw [List.isPrefixOf_iff_prefix]
      exact (show ("fallback-/".data ++ m' : Str) = "fallback-".data ++ '/' :: m'
        from rfl) ▸ List.prefix_append _ m'
    have hdrop : ("fallback-".data ++ '/' :: m').drop 9 = '/' :: m' :=
      List.drop_left "fallback-".data _
    have hnp1 : "fallback-".data.isPrefixOf ('/' :: m') = false := by
      rw [show "fallback-".data = 'f' :: "allback-".data from rfl, isPrefixOf_cons_cons]
      simp [show (('f' == '/') : Bool) = false from by decide]
    have hnp2 : "file-".data.isPrefixOf ('/' :: m') = false := by
      rw [show "file-".data = 'f' :: "ile-".data from rfl, isPrefixOf_cons_cons]
      simp [show (('f' == '/') : Bool) = false from by decide]
    have hnone : (cache.filterMap (scan_step now)).find?
        (fun g => decide (fhKey g = find_probe FFlags.fallbackOnly ('/' :: m'))) = Option.none := by
      rw [List.find?_eq_none]
      intro x hx
      have hkx := hgone x hx
      simp only [decide_eq_true_eq, find_probe, hnp1, hnp2, Bool.false_eq_true,
        if_false, fhKey, hmount, hflags] at hkx ⊢
      exact hkx
    simp only [fserve_contains, hpre1, if_true, Bool.false_eq_true, if_false,
      find_fh, hdrop, hnone, Option.isSome_none]
  · intro g hg hcond
    refine List.mem_filterMap.2 ⟨g, hg, ?_⟩
    rw [scan_step]
    have hc : ¬ ((scan_fh g now).refcount = 0 ∧ (scan_fh g now).expire ≥ 0 ∧
        now ≥ (scan_fh g now).expire) := by
      rw [refcount_scan_fh, expire_scan_fh]
      rcases hcond with h | h
      · exact fun hcc => by rw [hcc.1] at h; exact lt_irrefl 0 h
      · exact fun hcc => by rw [h] at hcc; omega
    rw [if_neg hc]

/-- A listener-less fallback handle whose expiry has passed,
instantiating C5. -/
def c5fh : FHNode :=
  { c1fh with refcount := 0, expire := 50, stats := 0, clients := [] }

/-- Witness for C5: scanning at time 60 reaps the handle that expired at
50, and the fallback name is no longer found. -/
theorem scan_reaps_expired_witness :
    fserve_contains (fserve_scan [c5fh] 60 true) ("fallback-".data ++ '/' :: "m".data) false
      = 0 :=
  (scan_reaps_expired [c5fh] 60 c5fh "m".data (by decide) (by decide) (by decide)
    (by decide) (by decide) (by decide) (by decide) (by decide)).2.1

/-- C2 (amended): on a cache hit with mount configuration present,
admission is refused with the 403-redirect response, and the cache and
client left untouched, exactly when `refcount > max_listeners` at check
time; since the check uses a strict comparison on the pre-increment
refcount, a mount with `max_listeners = 2` and two attached listeners
still admits the third listener, whose attachment raises the refcount
to 3. -/
theorem setup_client_admission_policy
    (cache : List FHNode) (client : Client) (finfo : FBInfo) (m : MountInfo)
    (dupReject : Bool) (openRes : Option FHNode) (now : Int) (fchRes : Int) (fh : FHNode)
    (hvalid : ¬ (finfo.flags.missing = true ∨ (finfo.flags.fallback = true ∧ finfo.limit = 0)))
    (hfind : find_fh cache finfo = some fh) :
    ((m.max_listeners ≥ 0 ∧ fh.refcount > m.max_listeners) →
      fserve_setup_client_fb cache client finfo (some m) dupReject openRes now fchRes
        = ⟨SetupRes.send403redirect, cache, client⟩) ∧
    (m.max_listeners = 2 → fh.refcount = 2 → dupReject = false → client.respcode = 0 →
     client.endUnspec = true → fh.finfo.ftype ≠ FORMAT_TYPE_UNDEFINED →
      (fserve_setup_client_fb cache client finfo (some m) dupReject openRes now fchRes).res
        = SetupRes.ok ∧
      Option.map FHNode.refcount
        (find_fh (fserve_setup_client_fb cache client finfo (some m) dupReject openRes
          now fchRes).cache finfo) = some 3) := by
  constructor
  · intro h403
    rw [fserve_setup_client_fb.eq_def, if_neg hvalid, hfind]
    simp only [if_pos h403]
  · intro hm2 href2 hdup hresp hend hft
    have hno403 : ¬ (m.max_listeners ≥ 0 ∧ fh.refcount > m.max_listeners) := by
      rw [hm2, href2]
      omega
    obtain ⟨s, hs⟩ : ∃ s, finfo.mount = some s := by
      cases hmt : finfo.mount with
      | none => rw [find_fh, hmt] at hfind; exact Option.noConfusion hfind
      | some s => exact ⟨s, rfl⟩
    have hfind' : cache.find?
        (fun g => decide (fhKey g = find_probe finfo.flags s)) = some fh := by
      rw [find_fh, hs] at hfind
      exact hfind
    have hkey0 := List.find?_some hfind'
    simp only [decide_eq_true_eq] at hkey0
    have hkey : fhKey fh = find_probe finfo.flags s := hkey0
    have hstep : fserve_setup_client_fb cache client finfo (some m) dupReject openRes
        now fchRes = setup_attach cache fh client now fchRes := by
      rw [fserve_setup_client_fb.eq_def, if_neg hvalid, hfind]
      simp only [if_neg hno403, hdup, Bool.false_eq_true, if_false]
    have hft0 : fh.finfo.ftype ≠ 0 := hft
    have hres : (setup_attach cache fh client now fchRes).res = SetupRes.ok := by
      by_cases hl : fh.finfo.limit ≠ 0 <;>
        simp [setup_attach, hresp, hend, FORMAT_TYPE_UNDEFINED, hft0, hl]
    have hcache : (setup_attach cache fh client now fchRes).cache
        = update_first (fun n => decide (fhKey n = fhKey fh))
            (fun n => fh_add_client n client.cid) cache := by
      by_cases hl : fh.finfo.limit ≠ 0 <;>
        simp [setup_attach, hresp, hend, FORMAT_TYPE_UNDEFINED, hft0, hl]
    rw [hstep]
    refine ⟨hres, ?_⟩
    rw [hcache]
    simp only [find_fh, hs]
    rw [hkey,
      find?_update_first _ _ (fun n h => by simpa [fhKey_fh_add_client] using h), hfind']
    simp [refcount_fh_add_client, href2]

/-- The admission request for the fallback mount /m with a nonzero
limit, instantiating C2. -/
def c2finfo : FBInfo :=
  { flags := FFlags.fallbackOnly, mount := some "/m".data, fsize := 4096,
    limit := 1400, override := Option.none, ftype := 1 }

/-- The /m fallback handle with three listeners already attached. -/
def c2fh3 : FHNode := { c1fh with refcount := 3 }

/-- Counterexample to C2 as stated: with `max_listeners = 2` and two
listeners attached (refcount 2 in `c1fh`), the third admission is NOT
refused with 403-redirect; it is admitted and the refcount rises
to 3. -/
theorem setup_client_third_admission_counterexample :
    (fserve_setup_client_fb [c1fh] democlient c2finfo (some ⟨2⟩) false Option.none
      100 0).res = SetupRes.ok ∧
    (fserve_setup_client_fb [c1fh] democlient c2finfo (some ⟨2⟩) false Option.none
      100 0).res ≠ SetupRes.send403redirect ∧
    Option.map FHNode.refcount
      (find_fh (fserve_setup_client_fb [c1fh] democlient c2finfo (some ⟨2⟩) false
        Option.none 100 0).cache c2finfo) = some 3 := by
  refine ⟨by decide, by decide, by decide⟩

/-- Witness for the amended C2: with refcount 3 the next admission is
refused untouched, and with refcount 2 the next admission succeeds. -/
theorem setup_client_admission_policy_witness :
    fserve_setup_client_fb [c2fh3] democlient c2finfo (some ⟨2⟩) false Option.none 100 0
      = ⟨SetupRes.send403redirect, [c2fh3], democlient⟩ ∧
    (fserve_setup_client_fb [c1fh] democlient c2finfo (some ⟨2⟩) false Option.none
      100 0).res = SetupRes.ok := by
  constructor
  · exact (setup_client_admission_policy [c2fh3] democlient c2finfo ⟨2⟩ false Option.none
      100 0 c2fh3 (by decide) (by decide)).1 (by decide)
  · exact ((setup_client_admission_policy [c1fh] democlient c2finfo ⟨2⟩ false Option.none
      100 0 c1fh (by decide) (by decide)).2 rfl rfl rfl rfl rfl (by decide)).1

/-- C3 (amended): on a throttled tick (running server, no error, no
override, no worker move, no FLV wrapping) whose computed rate exceeds
the limit, a zero-byte sample is recorded into both the handle meter
and the global meter; and when additionally `counter > 8192` the tick
returns 0 without reading from the file, having added
`1000 / (limit / 1400)` ms to the schedule when `limit ≥ 1400` and
50 ms when `limit < 1400` — so the 50 ms figure is a fallback for tiny
limits, not a floor: for limits of 29400 bytes/sec and above the added
delay drops below 50 ms. -/
theorem throttled_overrate_backoff
    (fh : FHNode) (client : Client) (timeMs nowSec : Int) (moveRes : Int)
    (readRes : ReadRes) (writeBytes : Int) (throttleSends : Nat) (globalRate : RateCalc)
    (herr : client.connError = false)
    (hov : fh.finfo.override = Option.none)
    (hflv : client.wantsFLV = false)
    (hrate : fh.finfo.limit <
      throttleRate client.counter ((nowSec - client.timer_start).toNat) fh.finfo.limit) :
    (∀ rc, fh.out_bitrate = some rc →
      ∃ rc', (throttled_file_send fh client timeMs nowSec true false moveRes readRes
        writeBytes throttleSends globalRate).fh_rate = some rc' ∧ (0, timeMs) ∈ rc'.samples) ∧
    ((0, timeMs) ∈ (throttled_file_send fh client timeMs nowSec true false moveRes readRes
        writeBytes throttleSends globalRate).globalRate.samples) ∧
    (8192 < client.counter →
      throttled_file_send fh client timeMs nowSec true false moveRes readRes
        writeBytes throttleSends globalRate
      = ⟨0, { client with schedule_ms := timeMs +
          (if 1400 ≤ fh.finfo.limit then ((1000 / (fh.finfo.limit / 1400) : Nat) : Int) else 50) },
        rate_add fh.out_bitrate 0 timeMs, ⟨(0, timeMs) :: globalRate.samples⟩, false, false⟩) := by
  refine ⟨?_, ?_, ?_⟩
  · intro rc hrc
    by_cases hc : client.counter > 8192
    · refine ⟨⟨(0, timeMs) :: rc.samples⟩, ?_, List.mem_cons_self _ _⟩
      simp [throttled_file_send, herr, hov, hflv, hrate, hc, rate_add, hrc]
    · rcases readRes with _ | _ | _
      · refine ⟨⟨(0, timeMs) :: rc.samples⟩, ?_, List.mem_cons_self _ _⟩
        simp [throttled_file_send, herr, hov, hflv, hrate, hc, rate_add, hrc]
      · refine ⟨⟨(0, timeMs) :: rc.samples⟩, ?_, List.mem_cons_self _ _⟩
        simp [throttled_file_send, herr, hov, hflv, hrate, hc, rate_add, hrc]
      · refine ⟨⟨((if writeBytes < 0 then 0 else writeBytes), timeMs) :: (0, timeMs) :: rc.samples⟩,
          ?_, ?_⟩
        · simp [throttled_file_send, herr, hov, hflv, hrate, hc, rate_add, hrc]
        · exact List.mem_cons_of_mem _ (List.mem_cons_self _ _)
  · by_cases hc : client.counter > 8192
    · simp [throttled_file_send, herr, hov, hflv, hrate, hc]
    · rcases readRes with _ | _ | _
      · simp [throttled_file_send, herr, hov, hflv, hrate, hc]
      · simp [throttled_file_send, herr, hov, hflv, hrate, hc]
      · simp [throttled_file_send, herr, hov, hflv, hrate, hc]
  · intro hc
    simp [throttled_file_send, herr, hov, hflv, hrate, hc]

/-- A fallback handle throttled to 29400 bytes per second. -/
def c3fh : FHNode := { c1fh with finfo := { c1fh.finfo with limit := 29400 } }

/-- A listener over its allowance: 40000 bytes after one second. -/
def c3client : Client := { democlient with counter := 40000 }

/-- Counterexample to C3 as stated: at limit 29400 the over-rate
backoff adds 1000 / (29400 / 1400) = 47 ms, below the alleged 50 ms
floor, even though the limit is positive (and well above 1400). -/
theorem throttled_backoff_floor_counterexample :
    0 < c3fh.finfo.limit ∧ 1400 ≤ c3fh.finfo.limit ∧
    (throttled_file_send c3fh c3client 1000 1 true false 0 ReadRes.ok 0 0
      ⟨[]⟩).client.schedule_ms = 1047 ∧
    (throttled_file_send c3fh c3client 1000 1 true false 0 ReadRes.ok 0 0
      ⟨[]⟩).didRead = false ∧
    ¬ (50 ≤ (throttled_file_send c3fh c3client 1000 1 true false 0 ReadRes.ok 0 0
      ⟨[]⟩).client.schedule_ms - 1000) := by
  refine ⟨by decide, by decide, by decide, by decide, by decide⟩

/-- Witness for the amended C3 at the concrete over-allowance tick. -/
theorem throttled_overrate_backoff_witness :
    throttled_file_send c3fh c3client 1000 1 true false 0 ReadRes.ok 0 0 ⟨[]⟩
      = ⟨0, { c3client with schedule_ms := 1000 +
          (if 1400 ≤ c3fh.finfo.limit then ((1000 / (c3fh.finfo.limit / 1400) : Nat) : Int) else 50) },
        rate_add c3fh.out_bitrate 0 1000, ⟨[(0, 1000)]⟩, false, false⟩ :=
  (throttled_overrate_backoff c3fh c3client 1000 1 0 ReadRes.ok 0 0 ⟨[]⟩
    rfl rfl rfl (by decide)).2.2 (by decide)

/-- C4: on a paced tick within the allowance, an end-of-file read (-1)
loops the client by resetting `intro_offset` to the frame start (not
to 0), reschedules by `client->throttle` ms, or 150 ms when that is
zero, and returns 0 with the listener kept; among the read outcomes
only the hard failure -2 makes the tick return -1. -/
theorem throttled_eof_loops
    (fh : FHNode) (client : Client) (timeMs nowSec : Int) (moveRes writeBytes : Int)
    (throttleSends : Nat) (globalRate : RateCalc)
    (herr : client.connError = false)
    (hov : fh.finfo.override = Option.none)
    (hflv : client.wantsFLV = false)
    (hrate : throttleRate client.counter ((nowSec - client.timer_start).toNat)
      fh.finfo.limit ≤ fh.finfo.limit) :
    (throttled_file_send fh client timeMs nowSec true false moveRes ReadRes.eof
        writeBytes throttleSends globalRate
      = ⟨0, { client with intro_offset := fh.frame_start_pos, schedule_ms := timeMs + (if client.throttle ≠ 0 then (client.throttle : Int) else 150) },
        fh.out_bitrate, globalRate, true, false⟩) ∧
    (∀ (rr : ReadRes) (wb : Int),
      (throttled_file_send fh client timeMs nowSec true false moveRes rr wb
        throttleSends globalRate).ret = -1 → rr = ReadRes.fatal) := by
  have hnt := not_lt.2 hrate
  constructor
  · simp [throttled_file_send, herr, hov, hflv, hnt]
  · intro rr wb hret
    rcases rr with _ | _ | _
    · simp [throttled_file_send, herr, hov, hflv, hnt] at hret
    · rfl
    · simp [throttled_file_send, herr, hov, hflv, hnt] at hret

/-- Witness for C4: a concrete in-allowance end-of-file tick loops to
frame offset 100 and reschedules 150 ms later. -/
theorem throttled_eof_loops_witness :
    throttled_file_send c1fh democlient 1000 10 true false 0 ReadRes.eof 0 0 ⟨[]⟩
      = ⟨0, { democlient with intro_offset := 100, schedule_ms := 1150 },
        c1fh.out_bitrate, ⟨[]⟩, true, false⟩ := by
  have h := (throttled_eof_loops c1fh democlient 1000 10 0 0 0 ⟨[]⟩
    rfl rfl rfl (by decide)).1
  rw [h]
  decide
